import Mathlib

/-!
Verification development for the csvtohl7 batch pipeline.

The definitions below are a shallow embedding of the Python sources
(src/main.py, src/hl7_utilities.py, src/patientinfo.py).  File contents are
modelled as lists of characters, machine integers as Nat/Int, the shared
sequence counter as explicitly threaded state, fallible operations as
Except/Option values, and the retry delays (fractional seconds) as
naturals (the fractional retry delays in units of half a second).  Each
definition carries a comment naming the Python code it embeds.
-/

/-- Embeds BATCH_SIZE = 1000 from src/main.py. -/
def BATCH_SIZE : Nat := 1000

/-- Embeds count_lines (src/main.py lines 129-140): the number of newline
bytes in the file.  The Python loop reads the file in 1MB buffers and sums
the newline count of each buffer; buffered_count below models that loop
over an arbitrary split into buffers. -/
def count_lines (file : List Char) : Nat :=
  file.count '\n'

/-- Embeds the buffer loop of count_lines: the line count accumulated over
successive read buffers is the sum of the per-buffer newline counts. -/
def buffered_count (buffers : List (List Char)) : Nat :=
  (buffers.map (fun b => b.count '\n')).sum

/-- Embeds the chunk-building for-loop of get_file_chunks
(src/main.py lines 186-193): n counts the remaining loop iterations, i is
the Python loop index, each chunk has size lines_per_chunk plus one extra
line while i < remainder, and start_line advances to the previous
end_line. -/
def chunks_build (lines_per_chunk remainder : Nat) :
    Nat → Nat → Nat → List (Nat × Nat)
  | 0, _, _ => []
  | n + 1, start, i =>
      (start, start + (lines_per_chunk + (if i < remainder then 1 else 0))) ::
        chunks_build lines_per_chunk remainder n
          (start + (lines_per_chunk + (if i < remainder then 1 else 0)))
          (i + 1)

/-- Embeds get_file_chunks (src/main.py lines 142-195) given the already
computed total line count.  In Python num_chunks defaults to NUM_WORKERS
(which is at least 1) when passed as None or 0; here the resolved chunk
count is an explicit argument. -/
def plan_chunks (total_lines : Nat) (has_header : Bool) (num_chunks : Nat) :
    List (Nat × Nat) :=
  if total_lines = 0 then []
  else
    let data_lines := if has_header then total_lines - 1 else total_lines
    if data_lines = 0 then []
    else
      let nc := if data_lines < num_chunks * 100
                then max 1 (data_lines / 100) else num_chunks
      chunks_build (data_lines / nc) (data_lines % nc) nc
        (if has_header then 1 else 0) 0

/-- Embeds get_file_chunks on a file: a CSV file (has a header) when the
name ends in .csv, a PAS file otherwise; the line count comes from
count_lines. -/
def get_file_chunks (file : List Char) (is_csv : Bool) (num_chunks : Nat) :
    List (Nat × Nat) :=
  plan_chunks (count_lines file) is_csv num_chunks

/-- Number of data lines get_file_chunks works with: the counted lines
minus the header line for a CSV file. -/
def data_lines_of (file : List Char) (is_csv : Bool) : Nat :=
  if is_csv then count_lines file - 1 else count_lines file

/-- First data line: 1 for a CSV file (line 0 is the header), 0
otherwise. -/
def chunk_base (is_csv : Bool) : Nat :=
  if is_csv then 1 else 0

/-- The chunk count after the flooring step of get_file_chunks
(src/main.py lines 175-176). -/
def floored_chunk_count (data_lines requested : Nat) : Nat :=
  if data_lines < requested * 100 then max 1 (data_lines / 100) else requested

/-- A list of half-open ranges is a contiguous chain from s to e: each
range starts where the previous one ended, ends no earlier than it starts,
the first starts at s and the last ends at e. -/
def chainedb : Nat → List (Nat × Nat) → Nat → Bool
  | s, [], e => s == e
  | s, (a, b) :: t, e => (a == s) && (Nat.ble s b) && chainedb b t e

/-- Size of the j-th range of a chunk plan. -/
def size_at (cs : List (Nat × Nat)) (j : Nat) : Nat :=
  (cs.getD j (0, 0)).2 - (cs.getD j (0, 0)).1

/-- Total number of lines covered by a chunk plan. -/
def covered (cs : List (Nat × Nat)) : Nat :=
  (cs.map (fun p => p.2 - p.1)).sum

lemma buffered_count_eq (buffers : List (List Char)) :
    buffered_count buffers = buffers.flatten.count '\n' := by
  induction buffers with
  | nil => rfl
  | cons b bs ih =>
      simp only [buffered_count, List.map_cons, List.sum_cons,
        List.flatten_cons, List.count_append] at *
      omega

lemma chunks_build_length (q r : Nat) :
    ∀ n start i, (chunks_build q r n start i).length = n := by
  intro n
  induction n with
  | zero => intro start i; rfl
  | succ n ih =>
      intro start i
      simp only [chunks_build, List.length_cons, ih]

lemma chunks_build_chained (q r : Nat) :
    ∀ n start i,
      chainedb start (chunks_build q r n start i)
        (start + (n * q + (min (i + n) r - min i r))) = true := by
  intro n
  induction n with
  | zero =>
      intro start i
      simp [chunks_build, chainedb]
  | succ n ih =>
      intro start i
      simp only [chunks_build, chainedb, Bool.and_eq_true, beq_iff_eq,
        Nat.ble_eq]
      refine ⟨⟨by trivial, by omega⟩, ?_⟩
      have hrec := ih (start + (q + (if i < r then 1 else 0))) (i + 1)
      have harith :
          start + (q + (if i < r then 1 else 0)) +
              (n * q + (min (i + 1 + n) r - min (i + 1) r)) =
            start + ((n + 1) * q + (min (i + (n + 1)) r - min i r)) := by
        have hextra : (if i < r then 1 else 0) + min i r = min (i + 1) r := by
          split <;> omega
        have hmul : (n + 1) * q = q + n * q := by ring
        have h1 : min i r ≤ min (i + 1) r := by omega
        have h2 : min (i + 1) r ≤ min (i + 1 + n) r := by omega
        have h3 : i + 1 + n = i + (n + 1) := by omega
        rw [h3] at h2 ⊢
        omega
      rw [harith] at hrec
      exact hrec

lemma chunks_build_size_at (q r : Nat) :
    ∀ j n start i, j < n →
      size_at (chunks_build q r n start i) j
        = q + (if i + j < r then 1 else 0) := by
  intro j
  induction j with
  | zero =>
      intro n start i hj
      obtain ⟨n, rfl⟩ : ∃ m, n = m + 1 := ⟨n - 1, by omega⟩
      simp [chunks_build, size_at]
  | succ j ih =>
      intro n start i hj
      obtain ⟨n, rfl⟩ : ∃ m, n = m + 1 := ⟨n - 1, by omega⟩
      simp only [chunks_build, size_at, List.getD_cons_succ]
      have hrec := ih n (start + (q + (if i < r then 1 else 0))) (i + 1)
        (by omega)
      simp only [size_at] at hrec
      have hidx : i + 1 + j = i + (j + 1) := by omega
      rw [hidx] at hrec
      exact hrec

lemma chainedb_le : ∀ (cs : List (Nat × Nat)) (s e : Nat),
    chainedb s cs e = true → s ≤ e := by
  intro cs
  induction cs with
  | nil => intro s e h; simp [chainedb] at h; omega
  | cons p t ih =>
      intro s e h
      obtain ⟨a, b⟩ := p
      simp only [chainedb, Bool.and_eq_true, beq_iff_eq, Nat.ble_eq] at h
      exact le_trans h.1.2 (ih b e h.2)

lemma chainedb_lower : ∀ (cs : List (Nat × Nat)) (s e : Nat),
    chainedb s cs e = true → ∀ p ∈ cs, s ≤ p.1 := by
  intro cs
  induction cs with
  | nil => intro s e _ p hp; cases hp
  | cons hd t ih =>
      intro s e h p hp
      obtain ⟨a, b⟩ := hd
      simp only [chainedb, Bool.and_eq_true, beq_iff_eq, Nat.ble_eq] at h
      rcases List.mem_cons.mp hp with hp | hp
      · subst hp; omega
      · exact le_trans h.1.2 (ih b e h.2 p hp)

lemma chainedb_pairwise : ∀ (cs : List (Nat × Nat)) (s e : Nat),
    chainedb s cs e = true → cs.Pairwise (fun x y => x.2 ≤ y.1) := by
  intro cs
  induction cs with
  | nil => intro _ _ _; exact List.Pairwise.nil
  | cons hd t ih =>
      intro s e h
      obtain ⟨a, b⟩ := hd
      simp only [chainedb, Bool.and_eq_true, beq_iff_eq, Nat.ble_eq] at h
      exact List.Pairwise.cons (fun p hp => chainedb_lower t b e h.2 p hp)
        (ih b e h.2)

lemma chainedb_covered : ∀ (cs : List (Nat × Nat)) (s e : Nat),
    chainedb s cs e = true → covered cs = e - s := by
  intro cs
  induction cs with
  | nil =>
      intro s e h
      simp only [chainedb, beq_iff_eq] at h
      simp [covered, h]
  | cons hd t ih =>
      intro s e h
      obtain ⟨a, b⟩ := hd
      simp only [chainedb, Bool.and_eq_true, beq_iff_eq, Nat.ble_eq] at h
      have hbe := chainedb_le t b e h.2
      have := ih b e h.2
      simp only [covered, List.map_cons, List.sum_cons] at *
      omega

lemma chained_of_chunks (L nc : Nat) (hnc : 1 ≤ nc) (base : Nat) :
    chainedb base (chunks_build (L / nc) (L % nc) nc base 0) (base + L)
      = true := by
  have hch := chunks_build_chained (L / nc) (L % nc) nc base 0
  have hmod := Nat.div_add_mod L nc
  have hmodlt := Nat.mod_lt L (y := nc) (by omega)
  have harith : base + (nc * (L / nc) + (min (0 + nc) (L % nc) - min 0 (L % nc)))
      = base + L := by
    omega
  rwa [harith] at hch

lemma floored_pos (L K : Nat) (hK : 1 ≤ K) (hL : 1 ≤ L) :
    1 ≤ floored_chunk_count L K := by
  unfold floored_chunk_count
  split <;> omega

lemma plan_chunks_pos (total : Nat) (hh : Bool) (K : Nat)
    (hL : 1 ≤ (if hh then total - 1 else total)) :
    plan_chunks total hh K =
      chunks_build ((if hh then total - 1 else total) /
          floored_chunk_count (if hh then total - 1 else total) K)
        ((if hh then total - 1 else total) %
          floored_chunk_count (if hh then total - 1 else total) K)
        (floored_chunk_count (if hh then total - 1 else total) K)
        (if hh then 1 else 0) 0 := by
  have htot : total ≠ 0 := by
    intro h
    subst h
    cases hh <;> simp at hL
  have hdl : ¬ (if hh then total - 1 else total) = 0 := by omega
  simp only [plan_chunks, floored_chunk_count]
  simp [htot, hdl]

lemma plan_zero (file : List Char) (is_csv : Bool) (K : Nat)
    (h0 : data_lines_of file is_csv = 0) :
    get_file_chunks file is_csv K = [] := by
  unfold get_file_chunks plan_chunks
  unfold data_lines_of at h0
  by_cases htot : count_lines file = 0
  · simp [htot]
  · simp [htot, h0]

lemma plan_chained (file : List Char) (is_csv : Bool) (K : Nat) (hK : 1 ≤ K)
    (hL : 1 ≤ data_lines_of file is_csv) :
    chainedb (chunk_base is_csv) (get_file_chunks file is_csv K)
      (chunk_base is_csv + data_lines_of file is_csv) = true := by
  have hL' : 1 ≤ (if is_csv then count_lines file - 1 else count_lines file) := hL
  have hplan := plan_chunks_pos (count_lines file) is_csv K hL'
  unfold get_file_chunks
  rw [hplan]
  exact chained_of_chunks (if is_csv then count_lines file - 1 else count_lines file)
    (floored_chunk_count (if is_csv then count_lines file - 1 else count_lines file) K)
    (floored_pos _ K hK hL') (if is_csv then 1 else 0)

lemma plan_length (file : List Char) (is_csv : Bool) (K : Nat) (hK : 1 ≤ K)
    (hL : 1 ≤ data_lines_of file is_csv) :
    (get_file_chunks file is_csv K).length
      = floored_chunk_count (data_lines_of file is_csv) K := by
  have hL' : 1 ≤ (if is_csv then count_lines file - 1 else count_lines file) := hL
  have hplan := plan_chunks_pos (count_lines file) is_csv K hL'
  unfold get_file_chunks
  rw [hplan, chunks_build_length]
  rfl

lemma plan_size_at (file : List Char) (is_csv : Bool) (K : Nat) (hK : 1 ≤ K)
    (hL : 1 ≤ data_lines_of file is_csv) (j : Nat)
    (hj : j < (get_file_chunks file is_csv K).length) :
    size_at (get_file_chunks file is_csv K) j
      = data_lines_of file is_csv
          / floored_chunk_count (data_lines_of file is_csv) K
        + (if j < data_lines_of file is_csv
                % floored_chunk_count (data_lines_of file is_csv) K
           then 1 else 0) := by
  have hL' : 1 ≤ (if is_csv then count_lines file - 1 else count_lines file) := hL
  have hplan := plan_chunks_pos (count_lines file) is_csv K hL'
  rw [plan_length file is_csv K hK hL] at hj
  unfold get_file_chunks
  rw [hplan]
  have hs := chunks_build_size_at
    ((if is_csv then count_lines file - 1 else count_lines file) /
      floored_chunk_count (if is_csv then count_lines file - 1 else count_lines file) K)
    ((if is_csv then count_lines file - 1 else count_lines file) %
      floored_chunk_count (if is_csv then count_lines file - 1 else count_lines file) K)
    j (floored_chunk_count (if is_csv then count_lines file - 1 else count_lines file) K)
    (if is_csv then 1 else 0) 0 (by exact hj)
  simpa using hs

lemma plan_covered (file : List Char) (is_csv : Bool) (K : Nat) (hK : 1 ≤ K) :
    covered (get_file_chunks file is_csv K) = data_lines_of file is_csv := by
  by_cases hL : 1 ≤ data_lines_of file is_csv
  · have := chainedb_covered (get_file_chunks file is_csv K)
      (chunk_base is_csv) (chunk_base is_csv + data_lines_of file is_csv)
      (plan_chained file is_csv K hK hL)
    omega
  · have h0 : data_lines_of file is_csv = 0 := by omega
    rw [plan_zero file is_csv K h0, h0]
    rfl

/-- C2: for every file with at least one data line and every requested
chunk count K of at least 1, get_file_chunks returns (after flooring K so
that each chunk has at least 100 lines, with a minimum of 1 chunk) a
sequence of half-open (start_line, end_line) ranges that are pairwise
disjoint, contiguous, and together cover exactly the data-line interval
starting at line 1 when the file has a header and line 0 otherwise, whose
sizes are the quotient of data lines by the floored count plus one extra
line for each of the first (data lines mod count) chunks, so sizes differ
by at most one; for an empty or header-only file it returns the empty
plan. -/
theorem C2_chunk_planner_partition (file : List Char) (is_csv : Bool)
    (K : Nat) (hK : 1 ≤ K) :
    (data_lines_of file is_csv = 0 → get_file_chunks file is_csv K = []) ∧
    (1 ≤ data_lines_of file is_csv →
      1 ≤ (get_file_chunks file is_csv K).length ∧
      (get_file_chunks file is_csv K).length
        = floored_chunk_count (data_lines_of file is_csv) K ∧
      chainedb (chunk_base is_csv) (get_file_chunks file is_csv K)
        (chunk_base is_csv + data_lines_of file is_csv) = true ∧
      (get_file_chunks file is_csv K).Pairwise (fun x y => x.2 ≤ y.1) ∧
      (∀ j, j < (get_file_chunks file is_csv K).length →
        size_at (get_file_chunks file is_csv K) j
          = data_lines_of file is_csv
              / floored_chunk_count (data_lines_of file is_csv) K
            + (if j < data_lines_of file is_csv
                    % floored_chunk_count (data_lines_of file is_csv) K
               then 1 else 0))) := by
  refine ⟨plan_zero file is_csv K, fun hL => ?_⟩
  have hlen := plan_length file is_csv K hK hL
  have hnc := floored_pos (data_lines_of file is_csv) K hK hL
  refine ⟨by omega, hlen, plan_chained file is_csv K hK hL, ?_,
    fun j hj => plan_size_at file is_csv K hK hL j hj⟩
  exact chainedb_pairwise _ _ _ (plan_chained file is_csv K hK hL)

/-- Concrete check of C2 on a three-line CSV file (header plus two data
lines) with two requested chunks. -/
theorem C2_chunk_planner_partition_witness :
    (1 : Nat) ≤ 2 ∧
    (1 ≤ data_lines_of ['h', '\n', 'a', '\n', 'b', '\n'] true) ∧
    chainedb (chunk_base true)
      (get_file_chunks ['h', '\n', 'a', '\n', 'b', '\n'] true 2)
      (chunk_base true + data_lines_of ['h', '\n', 'a', '\n', 'b', '\n'] true)
      = true :=
  ⟨by decide, by decide,
    ((C2_chunk_planner_partition ['h', '\n', 'a', '\n', 'b', '\n'] true 2
      (by decide)).2 (by decide)).2.2.1⟩

/-- Modelled from the claim: the actual number of lines of a file, where a
final line not terminated by a line feed still counts as a line. -/
def actual_lines (file : List Char) : Nat :=
  if file.isEmpty then 0
  else file.count '\n' + (if file.getLast? = some '\n' then 0 else 1)

/-- Modelled from the claim: the actual number of data lines (excluding
the header line of a CSV file). -/
def actual_data_lines (file : List Char) (is_csv : Bool) : Nat :=
  if is_csv then actual_lines file - 1 else actual_lines file

/-- C9: count_lines returns exactly the number of line-feed bytes of the
file (also when accumulated buffer by buffer), so for a file whose final
line is unterminated the count excludes that line, the chunk plan covers
one fewer line than the actual data lines, and a non-empty file with no
line feed at all yields an empty plan. -/
theorem C9_count_lines_drops_unterminated_line (file : List Char)
    (is_csv : Bool) (K : Nat) (hK : 1 ≤ K) (hne : file ≠ [])
    (hlast : file.getLast? ≠ some '\n') :
    count_lines file = file.count '\n' ∧
    (∀ buffers : List (List Char), buffers.flatten = file →
      buffered_count buffers = count_lines file) ∧
    count_lines file + 1 = actual_lines file ∧
    (1 ≤ actual_data_lines file is_csv →
      covered (get_file_chunks file is_csv K) + 1
        = actual_data_lines file is_csv) ∧
    (file.count '\n' = 0 → get_file_chunks file is_csv K = []) := by
  have hemp : file.isEmpty = false := by simpa [List.isEmpty_iff] using hne
  have hact : actual_lines file = file.count '\n' + 1 := by
    unfold actual_lines
    simp [hemp, hlast]
  refine ⟨rfl, ?_, by unfold count_lines; omega, fun hdata => ?_, fun h0 => ?_⟩
  · intro buffers hb
    rw [buffered_count_eq, hb]
    rfl
  · have hcov := plan_covered file is_csv K hK
    unfold actual_data_lines at hdata ⊢
    unfold data_lines_of count_lines at hcov
    cases is_csv <;> simp only [if_true, if_false, Bool.false_eq_true,
      Bool.true_eq_false, ite_true, ite_false] at * <;> omega
  · apply plan_zero
    unfold data_lines_of count_lines
    cases is_csv <;> simp only [if_true, if_false, Bool.false_eq_true,
      Bool.true_eq_false, ite_true, ite_false] <;> omega

/-- Concrete check of C9 on the CSV file "ab(LF)cd": the plan is empty and
the single actual data line is the unterminated one that was dropped. -/
theorem C9_count_lines_drops_unterminated_line_witness :
    covered (get_file_chunks ['a', 'b', '\n', 'c', 'd'] true 1) + 1
      = actual_data_lines ['a', 'b', '\n', 'c', 'd'] true :=
  ((C9_count_lines_drops_unterminated_line ['a', 'b', '\n', 'c', 'd'] true 1
      (by decide) (by decide) (by decide)).2.2.2.1 (by decide))

/-- Embeds PAS_RECORD_SEPARATOR = chr(30) from src/main.py. -/
def PAS_RECORD_SEPARATOR : Char := Char.ofNat 30

/-- Embeds the CSV batching loop of producer_function and
producer_function_chunk (src/main.py lines 331-346 and 205-234): records
accumulate into the current batch, a full batch of BATCH_SIZE records is
emitted, and a non-empty final partial batch is emitted at the end. -/
def batch_loop (records batch : List α) : List (List α) :=
  match records with
  | [] => if batch.isEmpty then [] else [batch]
  | r :: rest =>
      if BATCH_SIZE ≤ (batch ++ [r]).length
      then (batch ++ [r]) :: batch_loop rest []
      else batch_loop rest (batch ++ [r])

/-- Embeds the PAS batching loop (src/main.py lines 354-357 and 248-251):
for i in range(0, len(records), BATCH_SIZE) the slice
records[i:i+BATCH_SIZE] is emitted as a batch.  Each iteration consumes at
least one record (BATCH_SIZE is at least 1), so a fuel of records.length
iterations always covers the whole loop; slice_batches supplies it and the
zero-fuel arm is never reached on a non-empty list. -/
def slice_batches_go : Nat → List α → List (List α)
  | _, [] => []
  | 0, records => [records.take BATCH_SIZE]
  | fuel + 1, records =>
      records.take BATCH_SIZE :: slice_batches_go fuel (records.drop BATCH_SIZE)

/-- The PAS batching loop run with enough fuel for its input. -/
def slice_batches (records : List α) : List (List α) :=
  slice_batches_go records.length records

/-- Embeds a single character split, as Python str.split with a one
character separator: every occurrence splits, empty pieces are kept. -/
def split_on_char (sep : Char) : List Char → List (List Char)
  | [] => [[]]
  | c :: rest =>
      if c = sep then [] :: split_on_char sep rest
      else match split_on_char sep rest with
        | [] => [[c]]
        | g :: gs => (c :: g) :: gs

/-- Embeds Python str.split on the two character separator CRLF, scanning
left to right without overlap, keeping empty pieces. -/
def split_crlf : List Char → List (List Char)
  | [] => [[]]
  | [c] => [[c]]
  | c1 :: c2 :: rest =>
      if c1 = '\r' ∧ c2 = '\n' then [] :: split_crlf rest
      else match split_crlf (c2 :: rest) with
        | [] => [[c1]]
        | g :: gs => (c1 :: g) :: gs

/-- Embeds the PAS record extraction (src/main.py lines 350-352 and
239-242): split the content on CRLF, keep the lines whose strip is
non-empty, and split each on the record separator. -/
def pas_records (content : List Char) : List (List (List Char)) :=
  ((split_crlf content).filter (fun r => !(r.all Char.isWhitespace))).map
    (split_on_char PAS_RECORD_SEPARATOR)

/-- Embeds the CSV branch of producer_function (src/main.py lines 334-346
and 359-362) at the record level: the rows read by csv.reader after the
header are grouped into batches. -/
def producer_function_csv (records : List α) : List (List α) :=
  batch_loop records []

/-- Embeds the PAS branch of producer_function (src/main.py lines
348-357) followed by the trailing final-batch put (lines 359-362): the
loop enqueues each slice records[i:i+BATCH_SIZE] and leaves the Python
variable batch holding the last slice it enqueued, and the trailing
"if batch:" block - written for the CSV branch but executed
unconditionally - enqueues that last slice a second time when it is
non-empty. -/
def producer_function_pas (content : List Char) :
    List (List (List (List Char))) :=
  let batches := slice_batches (pas_records content)
  match batches.getLast? with
  | none => batches
  | some b => if b.isEmpty then batches else batches ++ [b]

/-- Embeds the CSV branch of producer_function_chunk (src/main.py lines
209-234): after skipping the header the reader skips records while
line_number < start_line and reads records while line_number < end_line
(stopping early at end of file), so data records with 1-based line numbers
start_line to end_line - 1 are batched. -/
def producer_function_chunk_csv (records : List α)
    (start_line end_line : Nat) : List (List α) :=
  batch_loop ((records.drop (start_line - 1)).take (end_line - start_line)) []

/-- Embeds the PAS branch of producer_function_chunk (src/main.py lines
236-251) followed by the trailing final-batch put (lines 253-256): the
slice all_records[start_line:end_line] is batched, and the trailing
"if batch:" block - whose comment says "(for CSV files)" but which runs
unconditionally - enqueues the chunk's last non-empty slice a second
time. -/
def producer_function_chunk_pas (content : List Char)
    (start_line end_line : Nat) : List (List (List (List Char))) :=
  let batches := slice_batches (((pas_records content).drop start_line).take
    (end_line - start_line))
  match batches.getLast? with
  | none => batches
  | some b => if b.isEmpty then batches else batches ++ [b]

lemma batch_loop_flatten :
    ∀ (records batch : List α), (batch_loop records batch).flatten
      = batch ++ records := by
  intro records
  induction records with
  | nil =>
      intro batch
      by_cases hb : batch.isEmpty
      · have : batch = [] := by simpa [List.isEmpty_iff] using hb
        simp [batch_loop, hb, this]
      · simp [batch_loop, hb]
  | cons r rest ih =>
      intro batch
      by_cases hfull : BATCH_SIZE ≤ batch.length + 1
      · simp [batch_loop, hfull, ih]
      · simp [batch_loop, hfull, ih]

lemma slice_batches_go_flatten :
    ∀ (fuel : Nat) (records : List α), records.length ≤ fuel →
      (slice_batches_go fuel records).flatten = records := by
  intro fuel
  induction fuel with
  | zero =>
      intro records h
      have hnil : records = [] := List.length_eq_zero.mp (by omega)
      subst hnil
      rfl
  | succ fuel ih =>
      intro records h
      cases records with
      | nil => rfl
      | cons r rs =>
          simp only [slice_batches_go, List.flatten_cons]
          rw [ih ((r :: rs).drop BATCH_SIZE) (by
            simp only [List.length_drop, List.length_cons, BATCH_SIZE]
            simp only [List.length_cons] at h
            omega)]
          exact List.take_append_drop _ _

lemma slice_batches_flatten (records : List α) :
    (slice_batches records).flatten = records :=
  slice_batches_go_flatten records.length records le_rfl

lemma chainedb_flatten_slices (l : List α) (base : Nat) :
    ∀ (cs : List (Nat × Nat)) (s e : Nat), chainedb s cs e = true →
      base ≤ s →
      (cs.map (fun p => (l.drop (p.1 - base)).take (p.2 - p.1))).flatten
        = (l.drop (s - base)).take (e - s) := by
  intro cs
  induction cs with
  | nil =>
      intro s e h _
      simp only [chainedb, beq_iff_eq] at h
      subst h
      simp
  | cons hd t ih =>
      intro s e h hb
      obtain ⟨a, b⟩ := hd
      simp only [chainedb, Bool.and_eq_true, beq_iff_eq, Nat.ble_eq] at h
      obtain ⟨⟨ha, hsb⟩, hch⟩ := h
      subst ha
      have hbe := chainedb_le t b e hch
      have hIH := ih b e hch (le_trans hb hsb)
      simp only [List.map_cons, List.flatten_cons, hIH]
      have hsplit : e - a = (b - a) + (e - b) := by omega
      have hidx : a - base + (b - a) = b - base := by omega
      rw [hsplit, List.take_add, List.drop_drop, hidx]

lemma chunked_coverage_csv (file : List Char) (records : List α) (K : Nat)
    (hK : 1 ≤ K) (hrec : records.length = data_lines_of file true) :
    ((get_file_chunks file true K).map
      (fun p => (producer_function_chunk_csv records p.1 p.2).flatten)).flatten
      = records := by
  by_cases hL : 1 ≤ data_lines_of file true
  · have hch := plan_chained file true K hK hL
    have hmap : (get_file_chunks file true K).map
        (fun p => (producer_function_chunk_csv records p.1 p.2).flatten)
      = (get_file_chunks file true K).map
        (fun p => (records.drop (p.1 - 1)).take (p.2 - p.1)) := by
      apply List.map_congr_left
      intro p _
      unfold producer_function_chunk_csv
      rw [batch_loop_flatten]
      simp
    rw [hmap]
    have hslice := chainedb_flatten_slices records 1 (get_file_chunks file true K)
      (chunk_base true) (chunk_base true + data_lines_of file true) hch
      (by simp [chunk_base])
    have h1 : chunk_base true - 1 = 0 := by simp [chunk_base]
    have h2 : chunk_base true + data_lines_of file true - chunk_base true
        = records.length := by
      simp only [chunk_base, if_true]
      omega
    rw [hslice, h1, h2, List.drop_zero, List.take_length]
  · have h0 : data_lines_of file true = 0 := by omega
    rw [plan_zero file true K h0]
    have hnil : records = [] := List.length_eq_zero.mp (by omega)
    simp [hnil]

/-- C1 fails on the code: in both producer_function and
producer_function_chunk the trailing final-batch put (src/main.py lines
359-362 and 253-256), whose own comment says it is for CSV files, also
runs for PAS input, where the loop variable batch still holds the last
PAS slice; every non-empty PAS source therefore has its final slice
enqueued twice, and the records of that slice appear in two batches.  On
the two-record PAS content "x(CR)(LF)y" both PAS paths emit the single
full slice twice, so the concatenation of the emitted batches is not the
record list, while the CSV batching of the same records emits each record
exactly once. -/
theorem C1_pas_final_batch_enqueued_twice :
    pas_records ['x', '\r', '\n', 'y'] = [[['x']], [['y']]] ∧
    producer_function_pas ['x', '\r', '\n', 'y']
      = [[[['x']], [['y']]], [[['x']], [['y']]]] ∧
    producer_function_chunk_pas ['x', '\r', '\n', 'y'] 0 2
      = [[[['x']], [['y']]], [[['x']], [['y']]]] ∧
    (producer_function_pas ['x', '\r', '\n', 'y']).count
        [[['x']], [['y']]] = 2 ∧
    (producer_function_pas ['x', '\r', '\n', 'y']).flatten
      ≠ pas_records ['x', '\r', '\n', 'y'] ∧
    (producer_function_csv (pas_records ['x', '\r', '\n', 'y'])).flatten
      = pas_records ['x', '\r', '\n', 'y'] := by
  decide

/-- Embeds one iteration of the consume loop of consumer_function
(src/main.py lines 370-396) against the queue state (SENTINEL = None, so
the queue holds some batch or none): an empty dequeue is a timeout and the
worker continues polling without exiting; the sentinel is put back for the
other consumers and the worker breaks out of its loop; a batch is dequeued
and processed and the worker continues. -/
def consumer_step (q : List (Option α)) : List (Option α) × Bool :=
  match q with
  | [] => ([], false)
  | none :: rest => (rest ++ [none], true)
  | some _ :: rest => (rest, false)

/-- One step of the worker pool of process_large_file: while any worker is
still active, a scheduled active worker performs one consumer_step; the
workers are symmetric, so the pool state is the queue plus the number of
active workers, and an exiting worker decrements that number. -/
def pool_step (s : List (Option α) × Nat) : List (Option α) × Nat :=
  match s with
  | (q, 0) => (q, 0)
  | (q, a + 1) =>
      match consumer_step q with
      | (q2, true) => (q2, a)
      | (q2, false) => (q2, a + 1)

/-- Embeds the task queue content after process_large_file (src/main.py
lines 297-303) joins all producers and then enqueues the sentinel exactly
once: all produced batches followed by one None. -/
def queue_after_producers (batches : List α) : List (Option α) :=
  batches.map some ++ [none]

lemma pool_step_batches (batches : List α) :
    ∀ W, 1 ≤ W →
      pool_step^[batches.length] (queue_after_producers batches, W)
        = ([none], W) := by
  induction batches with
  | nil => intro W _; rfl
  | cons b bs ih =>
      intro W hW
      obtain ⟨w, rfl⟩ : ∃ w, W = w + 1 := ⟨W - 1, by omega⟩
      have hstep : pool_step (queue_after_producers (b :: bs), w + 1)
          = (queue_after_producers bs, w + 1) := rfl
      simp only [queue_after_producers, List.length_cons]
      rw [Function.iterate_succ_apply]
      simp only [queue_after_producers] at hstep
      rw [hstep]
      exact ih (w + 1) (by omega)

lemma pool_step_drain :
    ∀ W, pool_step^[W] (([none] : List (Option α)), W) = ([none], 0) := by
  intro W
  induction W with
  | zero => rfl
  | succ w ih =>
      rw [Function.iterate_succ_apply]
      have hstep : pool_step (([none] : List (Option α)), w + 1)
          = ([none], w) := rfl
      rw [hstep]
      exact ih

/-- C3: the orchestrator enqueues exactly one sentinel after all producers
are joined (the queue then holds exactly one None); a dequeue timeout with
no item makes a worker poll again rather than exit; and for any number of
workers W of at least 1, after all batches are consumed every one of the W
workers dequeues the sentinel, re-enqueues it and exits, so after
(number of batches) + W pool steps the queue again holds exactly the
sentinel and zero workers remain active. -/
theorem C3_sentinel_termination (batches : List α) (W : Nat) (hW : 1 ≤ W) :
    (queue_after_producers batches).countP (fun x => x.isNone) = 1 ∧
    consumer_step ([] : List (Option α)) = ([], false) ∧
    pool_step^[batches.length + W] (queue_after_producers batches, W)
      = ([none], 0) := by
  refine ⟨?_, rfl, ?_⟩
  · unfold queue_after_producers
    rw [List.countP_append, List.countP_map]
    simp [List.countP_eq_zero]
  · rw [Nat.add_comm, Function.iterate_add_apply,
      pool_step_batches batches W hW]
    exact pool_step_drain W

/-- Concrete check of C3 with two batches and three workers: after five
pool steps all three workers have exited and the sentinel is back on the
queue. -/
theorem C3_sentinel_termination_witness :
    (queue_after_producers [10, 20]).countP (fun x => x.isNone) = 1 ∧
    consumer_step ([] : List (Option Nat)) = ([], false) ∧
    pool_step^[[10, 20].length + 3] (queue_after_producers [10, 20], 3)
      = ([none], 0) :=
  C3_sentinel_termination [10, 20] 3 (by decide)

/-- Outcome of one attempt to open and write an artifact file: success, a
BlockingIOError (resource temporarily unavailable), or any other error. -/
inductive WriteOutcome
  | success
  | blocked
  | failing
deriving DecidableEq, Repr

/-- Error surfaced by the retry loop of the save functions. -/
inductive SaveErr
  | blockedExhausted (attempts : Nat)
  | otherFailure (attempts : Nat)
  | loopFellThrough
deriving DecidableEq, Repr

/-- Embeds MAX_RETRIES = 5 from src/hl7_utilities.py lines 119 and 182. -/
def MAX_RETRIES : Nat := 5

/-- Embeds the 0.5 second starting retry delay from src/hl7_utilities.py
lines 120 and 183.  Delays are measured in units of half a second, so the
Python starting delay retry_delay = 0.5 is 1 unit and doubling the delay
doubles the unit count. -/
def BASE_DELAY : Nat := 1

/-- Embeds the retry loop shared by save_hl7_message_to_file
(src/hl7_utilities.py lines 122-163) and save_hl7_messages_batch (lines
214-236): for attempt in range(max_retries), a successful write returns,
BlockingIOError sleeps for the current retry_delay and doubles it unless
this was the last attempt, in which case it re-raises, and any other error
re-raises at once.  env1 gives the outcome of each attempt, remaining
counts the iterations the range has left (remaining + attempt =
max_retries), and slept collects the delays slept so far.  Returns the
attempt count on success or the surfaced error, with the final delay and
sleep log. -/
def attempts_go (env1 : Nat → WriteOutcome) :
    Nat → Nat → Nat → List Nat → Except SaveErr Nat × Nat × List Nat
  | 0, _, delay, slept => (.error .loopFellThrough, delay, slept)
  | remaining + 1, attempt, delay, slept =>
      match env1 attempt with
      | .success => (.ok (attempt + 1), delay, slept)
      | .blocked =>
          if 0 < remaining then
            attempts_go env1 remaining (attempt + 1) (delay * 2)
              (slept ++ [delay])
          else (.error (.blockedExhausted (attempt + 1)), delay, slept)
      | .failing => (.error (.otherFailure (attempt + 1)), delay, slept)

/-- Embeds the retry loop of save_hl7_message_to_file for one artifact:
retry_delay starts afresh at 0.5 on every call. -/
def save_message_attempts (env1 : Nat → WriteOutcome) :
    Except SaveErr Nat × Nat × List Nat :=
  attempts_go env1 MAX_RETRIES 0 BASE_DELAY []

/-- Embeds Python str.strip(): removes leading and trailing whitespace. -/
def py_strip (l : List Char) : List Char :=
  ((l.dropWhile Char.isWhitespace).reverse.dropWhile Char.isWhitespace).reverse

/-- Embeds the year-of-birth extraction of save_hl7_message_to_file and
save_hl7_messages_batch (src/hl7_utilities.py lines 89-101 and 188-200):
reading the PID-7 field may raise (the error case); an empty field, a
field shorter than 4 characters after stripping, or one whose first 4
characters are not all digits falls back to the "unknown" folder with a
warning; otherwise the first 4 characters name the partition folder.
Returns the folder name and whether a warning was logged. -/
def year_partition (dob_field : Except Unit (List Char)) : List Char × Bool :=
  match dob_field with
  | .error _ => ("unknown".toList, true)
  | .ok s =>
      if s.isEmpty || (py_strip s).length < 4
          || !((s.take 4).all Char.isDigit)
      then ("unknown".toList, true)
      else (s.take 4, false)

/-- An artifact handed to the batch writer, reduced to the field the
writer inspects: the serialized PID-7 date-of-birth field (or the marker
that reading it raises). -/
structure MsgIn where
  dob_field : Except Unit (List Char)
deriving Repr

/-- State threaded through save_hl7_messages_batch: the shared sequence
counter, the current retry_delay (initialized once per call, before the
message loop), the (folder, sequence) pairs of the successfully written
files, every sequence number taken from the counter, and the log of slept
delays. -/
structure BatchSaveState where
  counter : Nat
  delay : Nat
  written : List (List Char × Nat)
  assigned : List Nat
  slept : List Nat
deriving DecidableEq, Repr

/-- Embeds the message loop of save_hl7_messages_batch
(src/hl7_utilities.py lines 188-236): per message the partition folder is
derived, the shared counter is incremented by one under its lock, and the
retry loop attempts the write; retry_delay is not reset between messages;
an exhausted or non-transient failure propagates and aborts the loop.
env gives the outcome of attempt a of message i. -/
def save_msgs_loop (env : Nat → Nat → WriteOutcome) :
    List MsgIn → Nat → BatchSaveState →
      BatchSaveState × Option (Nat × SaveErr)
  | [], _, st => (st, none)
  | m :: rest, i, st =>
      let year := (year_partition m.dob_field).1
      let seq := st.counter + 1
      match attempts_go (env i) MAX_RETRIES 0 st.delay st.slept with
      | (.ok _, d2, slept2) =>
          save_msgs_loop env rest (i + 1)
            { counter := seq, delay := d2,
              written := st.written ++ [(year, seq)],
              assigned := st.assigned ++ [seq], slept := slept2 }
      | (.error e, d2, slept2) =>
          ({ counter := seq, delay := d2, written := st.written,
             assigned := st.assigned ++ [seq], slept := slept2 },
           some (i, e))

/-- Initial state of one save_hl7_messages_batch call starting from shared
counter value c0: retry_delay = 0.5, nothing written or slept yet. -/
def init_save_state (c0 : Nat) : BatchSaveState :=
  { counter := c0, delay := BASE_DELAY, written := [], assigned := [],
    slept := [] }

/-- Embeds save_hl7_messages_batch (src/hl7_utilities.py lines 166-238):
returns immediately on an empty message list (lines 174-175), otherwise
runs the message loop. -/
def save_hl7_messages_batch (env : Nat → Nat → WriteOutcome)
    (msgs : List MsgIn) (c0 : Nat) :
    BatchSaveState × Option (Nat × SaveErr) :=
  if msgs.isEmpty then (init_save_state c0, none)
  else save_msgs_loop env msgs 0 (init_save_state c0)

/-- Embeds the lock-protected increment-and-read of the shared sequence
counter (src/hl7_utilities.py lines 104-106 and 207-209): returns the new
counter value and the sequence number assigned. -/
def next_sequence (c : Nat) : Nat × Nat := (c + 1, c + 1)

/-- The sequence values produced by n successive atomic increment-and-read
operations starting from counter value c.  Each operation runs under the
shared lock, so any interleaving of the workers' increments is some serial
order of these operations. -/
def run_increments (c : Nat) : Nat → List Nat
  | 0 => []
  | n + 1 => (next_sequence c).2 :: run_increments (next_sequence c).1 n

/-- Embeds content.replace(CRLF, CR) of src/hl7_utilities.py line 138 (and
line 219): scans left to right replacing each non-overlapping CRLF pair
with a single CR. -/
def replace_crlf_with_cr : List Char → List Char
  | [] => []
  | [c] => [c]
  | c1 :: c2 :: rest =>
      if c1 = '\r' ∧ c2 = '\n' then '\r' :: replace_crlf_with_cr rest
      else c1 :: replace_crlf_with_cr (c2 :: rest)

/-- Embeds .replace(LF, CR): every remaining line feed becomes a carriage
return. -/
def replace_lf_with_cr (s : List Char) : List Char :=
  s.map (fun c => if c = '\n' then '\r' else c)

/-- Embeds the full line-ending normalization
content.replace(CRLF, CR).replace(LF, CR) of src/hl7_utilities.py lines
136-138 and 216-219. -/
def normalize_line_endings (s : List Char) : List Char :=
  replace_lf_with_cr (replace_crlf_with_cr s)

lemma lf_not_mem_replace_lf (s : List Char) :
    '\n' ∉ replace_lf_with_cr s := by
  intro h
  obtain ⟨c, _, hce⟩ := List.mem_map.mp h
  by_cases h2 : c = '\n'
  · rw [if_pos h2] at hce
    exact absurd hce (by decide)
  · rw [if_neg h2] at hce
    exact h2 hce

lemma replace_crlf_eq_self : ∀ (s : List Char), '\n' ∉ s →
    replace_crlf_with_cr s = s := by
  intro s
  induction s using replace_crlf_with_cr.induct with
  | case1 => intro _; rfl
  | case2 c => intro _; rfl
  | case3 c1 c2 rest hcond ih =>
      intro h
      refine absurd ?_ h
      rw [hcond.2]
      simp
  | case4 c1 c2 rest hcond ih =>
      intro h
      have h2 : '\n' ∉ c2 :: rest := fun hm => h (List.mem_cons_of_mem _ hm)
      simp only [replace_crlf_with_cr, if_neg hcond]
      rw [ih h2]

lemma replace_lf_eq_self (s : List Char) (h : '\n' ∉ s) :
    replace_lf_with_cr s = s := by
  unfold replace_lf_with_cr
  conv_rhs => rw [← List.map_id s]
  apply List.map_congr_left
  intro c hc
  have hcn : ¬ c = '\n' := fun e => h (e ▸ hc)
  simp [hcn]

/-- C6: the line-ending normalization (replace every CRLF pair by CR, then
every remaining LF by CR) leaves no line feed and no CRLF pair in its
output — every terminator is the single CR — and it is idempotent:
normalizing already-normalized text changes nothing. -/
theorem C6_normalization_single_terminator (s : List Char) :
    '\n' ∉ normalize_line_endings s ∧
    ¬ ['\r', '\n'] <:+: normalize_line_endings s ∧
    normalize_line_endings (normalize_line_endings s)
      = normalize_line_endings s := by
  have hno : '\n' ∉ normalize_line_endings s := lf_not_mem_replace_lf _
  refine ⟨hno, fun hinf => hno (hinf.subset (by simp)), ?_⟩
  show replace_lf_with_cr (replace_crlf_with_cr (normalize_line_endings s))
    = normalize_line_endings s
  rw [replace_crlf_eq_self _ hno, replace_lf_eq_self _ hno]

/-- C8: whenever the year-partition key (the PID-7 date-of-birth field) is
absent (reading it raises), empty, shorter than 4 characters after
stripping, or lacks a 4-digit numeric prefix, the writer uses the fixed
fallback partition "unknown" and logs a warning; a well-formed key uses
its 4-digit prefix without warning; and the write itself never fails for
this reason: with a succeeding file system the message is still written,
under the fallback folder, whatever the key looked like. -/
theorem C8_unknown_partition_fallback (s : List Char) (c0 : Nat)
    (d : Except Unit (List Char)) :
    (year_partition (.error ()) = ("unknown".toList, true)) ∧
    (s.isEmpty = true → year_partition (.ok s) = ("unknown".toList, true)) ∧
    ((py_strip s).length < 4 →
      year_partition (.ok s) = ("unknown".toList, true)) ∧
    ((s.take 4).all Char.isDigit = false →
      year_partition (.ok s) = ("unknown".toList, true)) ∧
    (s.isEmpty = false → 4 ≤ (py_strip s).length →
      (s.take 4).all Char.isDigit = true →
      year_partition (.ok s) = (s.take 4, false)) ∧
    (save_hl7_messages_batch (fun _ _ => .success) [⟨d⟩] c0
      = ({ counter := c0 + 1, delay := BASE_DELAY,
           written := [((year_partition d).1, c0 + 1)],
           assigned := [c0 + 1], slept := [] }, none)) := by
  refine ⟨rfl, ?_, ?_, ?_, ?_, rfl⟩
  · intro h
    simp [year_partition, h]
  · intro h
    simp [year_partition, h]
  · intro h
    simp [year_partition, h]
  · intro h1 h2 h3
    simp [year_partition, h1, h3]
    omega

/-- Concrete check of C8: a two-character date-of-birth field falls back
to the "unknown" folder with a warning. -/
theorem C8_unknown_partition_fallback_witness :
    year_partition (.ok ['1', '9']) = ("unknown".toList, true) :=
  (C8_unknown_partition_fallback ['1', '9'] 0 (.error ())).2.2.1 (by decide)

lemma run_increments_eq_range (n : Nat) :
    ∀ c, run_increments c n = List.range' (c + 1) n := by
  induction n with
  | zero => intro c; rfl
  | succ n ih =>
      intro c
      simp only [run_increments, next_sequence]
      rw [ih (c + 1), List.range'_succ]

lemma save_loop_success (msgs : List MsgIn) :
    ∀ (i : Nat) (st : BatchSaveState),
      (save_msgs_loop (fun _ _ => .success) msgs i st).2 = none ∧
      (save_msgs_loop (fun _ _ => .success) msgs i st).1.counter
        = st.counter + msgs.length ∧
      (save_msgs_loop (fun _ _ => .success) msgs i st).1.assigned
        = st.assigned ++ run_increments st.counter msgs.length ∧
      (save_msgs_loop (fun _ _ => .success) msgs i st).1.written.map
          (fun w => w.2)
        = st.written.map (fun w => w.2)
            ++ run_increments st.counter msgs.length := by
  induction msgs with
  | nil =>
      intro i st
      simp [save_msgs_loop, run_increments]
  | cons m rest ih =>
      intro i st
      have hatt : attempts_go ((fun _ _ => WriteOutcome.success) i) MAX_RETRIES
          0 st.delay st.slept = (.ok 1, st.delay, st.slept) := rfl
      simp only [save_msgs_loop, hatt]
      obtain ⟨h1, h2, h3, h4⟩ := ih (i + 1)
        { counter := st.counter + 1, delay := st.delay,
          written := st.written ++ [((year_partition m.dob_field).1,
            st.counter + 1)],
          assigned := st.assigned ++ [st.counter + 1], slept := st.slept }
      refine ⟨h1, ?_, ?_, ?_⟩
      · rw [h2]
        simp only [List.length_cons]
        omega
      · rw [h3]
        simp [run_increments, next_sequence]
      · rw [h4]
        simp [run_increments, next_sequence]

lemma save_loop_counter_mono (env : Nat → Nat → WriteOutcome)
    (msgs : List MsgIn) :
    ∀ i st, st.counter ≤ (save_msgs_loop env msgs i st).1.counter := by
  induction msgs with
  | nil => intro i st; simp [save_msgs_loop]
  | cons m rest ih =>
      intro i st
      simp only [save_msgs_loop]
      rcases hatt : attempts_go (env i) MAX_RETRIES 0 st.delay st.slept
        with ⟨res, d2, slept2⟩
      cases res with
      | ok a =>
          simp only []
          refine le_trans ?_ (ih (i + 1) _)
          simp
      | error e => simp

/-- The claim C4 asserts that the maximum assigned sequence number equals
the number of successful writes; it does not: the counter is incremented
before the write is attempted, so a failed write still consumes a
sequence number.  With one message whose write fails with a non-transient
error, the sequence number 1 is assigned but zero files are written. -/
theorem C4_sequence_counter_counterexample :
    (save_hl7_messages_batch (fun _ _ => .failing) [⟨.error ()⟩] 0).1.assigned
        = [1] ∧
    (save_hl7_messages_batch (fun _ _ => .failing)
        [⟨.error ()⟩] 0).1.written.length = 0 ∧
    (save_hl7_messages_batch (fun _ _ => .failing)
          [⟨.error ()⟩] 0).1.assigned.foldr max 0
      ≠ (save_hl7_messages_batch (fun _ _ => .failing)
          [⟨.error ()⟩] 0).1.written.length := by
  decide

/-- C4 (amended): each artifact write increments the shared
SequenceCounter by exactly one while holding its lock, one increment per
artifact also in batch mode, so the sequence numbers assigned by M atomic
increment-and-read operations starting from counter value c0 are pairwise
distinct, lie in (c0, c0 + M], and include the maximum c0 + M; the counter
is never reset (it never moves below its starting value).  The maximum
assigned value equals the number of successful writes provided every
initiated write succeeds: with a succeeding file system, a batch of
messages is written completely and the written sequence numbers are
exactly the assigned ones. -/
theorem C4_sequence_uniqueness_amended (c0 M : Nat) (msgs : List MsgIn)
    (env : Nat → Nat → WriteOutcome) :
    (run_increments c0 M).Nodup ∧
    (run_increments c0 M).length = M ∧
    (∀ x ∈ run_increments c0 M, c0 < x ∧ x ≤ c0 + M) ∧
    (1 ≤ M → c0 + M ∈ run_increments c0 M) ∧
    (save_hl7_messages_batch (fun _ _ => .success) msgs c0).2 = none ∧
    (save_hl7_messages_batch (fun _ _ => .success) msgs c0).1.counter
      = c0 + msgs.length ∧
    (save_hl7_messages_batch (fun _ _ => .success) msgs c0).1.assigned
      = run_increments c0 msgs.length ∧
    (save_hl7_messages_batch (fun _ _ => .success) msgs c0).1.written.map
        (fun w => w.2)
      = run_increments c0 msgs.length ∧
    c0 ≤ (save_hl7_messages_batch env msgs c0).1.counter := by
  have hb : ∀ (e : Nat → Nat → WriteOutcome),
      save_hl7_messages_batch e msgs c0
        = if msgs.isEmpty then (init_save_state c0, none)
          else save_msgs_loop e msgs 0 (init_save_state c0) := fun _ => rfl
  refine ⟨?_, ?_, ?_, ?_, ?_⟩
  · rw [run_increments_eq_range]
    exact List.nodup_range' _ _
  · rw [run_increments_eq_range]
    simp
  · intro x hx
    rw [run_increments_eq_range] at hx
    obtain ⟨i, hi, rfl⟩ := List.mem_range'.mp hx
    omega
  · intro hM
    rw [run_increments_eq_range]
    refine List.mem_range'.mpr ⟨M - 1, by omega, by omega⟩
  · by_cases hm : msgs.isEmpty
    · have hnil : msgs = [] := by simpa [List.isEmpty_iff] using hm
      subst hnil
      simp [save_hl7_messages_batch, init_save_state, run_increments]
    · obtain ⟨h1, h2, h3, h4⟩ := save_loop_success msgs 0 (init_save_state c0)
      have hmono := save_loop_counter_mono env msgs 0 (init_save_state c0)
      rw [hb (fun _ _ => .success), hb env, if_neg hm, if_neg hm]
      refine ⟨h1, ?_, ?_, ?_, hmono⟩
      · rw [h2]
        rfl
      · rw [h3]
        simp [init_save_state]
      · rw [h4]
        simp [init_save_state]

/-- Concrete check of C4 (amended): two increments from a fresh counter
assign the distinct numbers 1 and 2, whose maximum 2 is the number of
writes. -/
theorem C4_sequence_uniqueness_amended_witness :
    (0 : Nat) + 2 ∈ run_increments 0 2 :=
  (C4_sequence_uniqueness_amended 0 2 [⟨.error ()⟩]
    (fun _ _ => .success)).2.2.2.1 (by decide)

lemma attempts_blocked_front (env1 : Nat → WriteOutcome) :
    ∀ (k : Nat), ∀ remaining attempt d slept, k < remaining →
      (∀ j, j < k → env1 (attempt + j) = .blocked) →
      attempts_go env1 remaining attempt d slept
        = attempts_go env1 (remaining - k) (attempt + k) (2 ^ k * d)
            (slept ++ (List.range k).map (fun j => 2 ^ j * d)) := by
  intro k
  induction k with
  | zero =>
      intro remaining attempt d slept _ _
      simp
  | succ k ih =>
      intro remaining attempt d slept hk hb
      obtain ⟨r, rfl⟩ : ∃ r, remaining = r + 1 := ⟨remaining - 1, by omega⟩
      have h0 : env1 attempt = .blocked := by
        have := hb 0 (by omega)
        simpa using this
      have hr : 0 < r := by omega
      simp only [attempts_go, h0, if_pos hr]
      have hshift : ∀ j, j < k → env1 (attempt + 1 + j) = .blocked := by
        intro j hj
        have := hb (j + 1) (by omega)
        have hidx : attempt + (j + 1) = attempt + 1 + j := by omega
        rwa [hidx] at this
      rw [ih r (attempt + 1) (d * 2) (slept ++ [d]) (by omega) hshift]
      have e1 : r - k = r + 1 - (k + 1) := by omega
      have e2 : attempt + 1 + k = attempt + (k + 1) := by omega
      have e3 : 2 ^ k * (d * 2) = 2 ^ (k + 1) * d := by ring
      have e4 : slept ++ [d] ++ (List.range k).map (fun j => 2 ^ j * (d * 2))
          = slept ++ (List.range (k + 1)).map (fun j => 2 ^ j * d) := by
        rw [List.append_assoc, List.range_succ_eq_map, List.map_cons,
          List.map_map]
        congr 1
        simp only [List.singleton_append]
        congr 1
        · simp
        · apply List.map_congr_left
          intro j _
          simp only [Function.comp_apply, pow_succ]
          ring
      rw [e1, e2, e3, e4]

lemma attempts_success_at (env1 : Nat → WriteOutcome) (k d : Nat)
    (slept : List Nat) (hk : k < MAX_RETRIES)
    (hb : ∀ j, j < k → env1 j = .blocked) (hs : env1 k = .success) :
    attempts_go env1 MAX_RETRIES 0 d slept
      = (.ok (k + 1), 2 ^ k * d,
         slept ++ (List.range k).map (fun j => 2 ^ j * d)) := by
  rw [attempts_blocked_front env1 k MAX_RETRIES 0 d slept hk
    (by intro j hj; simpa using hb j hj)]
  obtain ⟨r, hr⟩ : ∃ r, MAX_RETRIES - k = r + 1 := ⟨MAX_RETRIES - k - 1, by omega⟩
  rw [hr]
  have hs0 : env1 (0 + k) = .success := by simpa using hs
  simp only [attempts_go, hs0]
  simp

lemma attempts_failing_at (env1 : Nat → WriteOutcome) (k d : Nat)
    (slept : List Nat) (hk : k < MAX_RETRIES)
    (hb : ∀ j, j < k → env1 j = .blocked) (hf : env1 k = .failing) :
    attempts_go env1 MAX_RETRIES 0 d slept
      = (.error (.otherFailure (k + 1)), 2 ^ k * d,
         slept ++ (List.range k).map (fun j => 2 ^ j * d)) := by
  rw [attempts_blocked_front env1 k MAX_RETRIES 0 d slept hk
    (by intro j hj; simpa using hb j hj)]
  obtain ⟨r, hr⟩ : ∃ r, MAX_RETRIES - k = r + 1 := ⟨MAX_RETRIES - k - 1, by omega⟩
  rw [hr]
  have hf0 : env1 (0 + k) = .failing := by simpa using hf
  simp only [attempts_go, hf0]
  simp

lemma attempts_exhausted (env1 : Nat → WriteOutcome) (d : Nat)
    (slept : List Nat) (hb : ∀ j, j < MAX_RETRIES → env1 j = .blocked) :
    attempts_go env1 MAX_RETRIES 0 d slept
      = (.error (.blockedExhausted MAX_RETRIES), 2 ^ (MAX_RETRIES - 1) * d,
         slept ++ (List.range (MAX_RETRIES - 1)).map (fun j => 2 ^ j * d)) := by
  rw [attempts_blocked_front env1 (MAX_RETRIES - 1) MAX_RETRIES 0 d slept
    (by simp [MAX_RETRIES])
    (by intro j hj; exact (by simpa using hb j (by simp [MAX_RETRIES] at hj ⊢; omega)))]
  have h4 : env1 (0 + (MAX_RETRIES - 1)) = .blocked := by
    simpa using hb (MAX_RETRIES - 1) (by simp [MAX_RETRIES])
  have hrem : MAX_RETRIES - (MAX_RETRIES - 1) = 0 + 1 := by simp [MAX_RETRIES]
  rw [hrem]
  simp only [attempts_go, h4]
  simp [MAX_RETRIES]

/-- The claim C5 asserts that every artifact write retries with backoff
starting at a 0.5 time-unit delay; in batch mode retry_delay is
initialized once per call and not reset between messages, so when each of
two messages hits one transient failure the second message's retry waits
2 x 0.5 units, not 0.5.  Delays are in units of half a second
(BASE_DELAY = 1 unit = 0.5 s). -/
theorem C5_retry_policy_counterexample :
    (save_hl7_messages_batch
        (fun _ a => if a = 0 then .blocked else .success)
        [⟨.error ()⟩, ⟨.error ()⟩] 0).1.slept
      = [BASE_DELAY, 2 * BASE_DELAY] ∧
    [BASE_DELAY, 2 * BASE_DELAY] ≠ [BASE_DELAY, BASE_DELAY] := by
  decide

/-- C5 (amended): each artifact write is attempted up to 5 times; k < 5
transient resource-unavailable failures followed by success yield exactly
k + 1 attempts; 5 consecutive transient failures re-raise the error after
the 5th attempt; any other I/O failure re-raises immediately after the
attempt that hit it, with no further retry.  The backoff delay starts at
0.5 time-units (1 half-second unit) per call of the save function and
doubles on each transient retry; in batch mode the delay is not reset
between messages, so it carries over and keeps doubling across the
artifacts of one batch call. -/
theorem C5_retry_policy_amended (env1 : Nat → WriteOutcome)
    (benv : Nat → Nat → WriteOutcome) (k k0 k1 c0 : Nat) :
    (k < MAX_RETRIES → (∀ j, j < k → env1 j = .blocked) →
      env1 k = .success →
      save_message_attempts env1
        = (.ok (k + 1), 2 ^ k * BASE_DELAY,
           (List.range k).map (fun j => 2 ^ j * BASE_DELAY))) ∧
    ((∀ j, j < MAX_RETRIES → env1 j = .blocked) →
      save_message_attempts env1
        = (.error (.blockedExhausted MAX_RETRIES),
           2 ^ (MAX_RETRIES - 1) * BASE_DELAY,
           (List.range (MAX_RETRIES - 1)).map
             (fun j => 2 ^ j * BASE_DELAY))) ∧
    (k < MAX_RETRIES → (∀ j, j < k → env1 j = .blocked) →
      env1 k = .failing →
      save_message_attempts env1
        = (.error (.otherFailure (k + 1)), 2 ^ k * BASE_DELAY,
           (List.range k).map (fun j => 2 ^ j * BASE_DELAY))) ∧
    (k0 < MAX_RETRIES → k1 < MAX_RETRIES →
      (∀ a, benv 0 a = if a < k0 then .blocked else .success) →
      (∀ a, benv 1 a = if a < k1 then .blocked else .success) →
      (save_hl7_messages_batch benv [⟨.error ()⟩, ⟨.error ()⟩] c0).1.slept
        = (List.range k0).map (fun j => 2 ^ j * BASE_DELAY)
          ++ (List.range k1).map (fun j => 2 ^ (k0 + j) * BASE_DELAY)) := by
  refine ⟨?_, ?_, ?_, ?_⟩
  · intro hk hb hs
    rw [save_message_attempts,
      attempts_success_at env1 k BASE_DELAY [] hk hb hs]
    simp
  · intro hb
    rw [save_message_attempts, attempts_exhausted env1 BASE_DELAY [] hb]
    simp
  · intro hk hb hf
    rw [save_message_attempts,
      attempts_failing_at env1 k BASE_DELAY [] hk hb hf]
    simp
  · intro hk0 hk1 hb0 hb1
    have hatt0 : attempts_go (benv 0) MAX_RETRIES 0 BASE_DELAY []
        = (.ok (k0 + 1), 2 ^ k0 * BASE_DELAY,
           [] ++ (List.range k0).map (fun j => 2 ^ j * BASE_DELAY)) := by
      apply attempts_success_at (benv 0) k0 BASE_DELAY [] hk0
      · intro j hj
        rw [hb0 j, if_pos hj]
      · rw [hb0 k0, if_neg (by omega)]
    have hatt1 : attempts_go (benv 1) MAX_RETRIES 0 (2 ^ k0 * BASE_DELAY)
        ([] ++ (List.range k0).map (fun j => 2 ^ j * BASE_DELAY))
        = (.ok (k1 + 1), 2 ^ k1 * (2 ^ k0 * BASE_DELAY),
           ([] ++ (List.range k0).map (fun j => 2 ^ j * BASE_DELAY))
             ++ (List.range k1).map
               (fun j => 2 ^ j * (2 ^ k0 * BASE_DELAY))) := by
      apply attempts_success_at (benv 1) k1 _ _ hk1
      · intro j hj
        rw [hb1 j, if_pos hj]
      · rw [hb1 k1, if_neg (by omega)]
    show (save_msgs_loop benv [⟨.error ()⟩, ⟨.error ()⟩] 0
        (init_save_state c0)).1.slept = _
    simp only [save_msgs_loop, init_save_state]
    rw [hatt0]
    simp only []
    rw [hatt1]
    simp only [List.nil_append, List.map_map]
    congr 1
    apply List.map_congr_left
    intro j _
    simp only [pow_add]
    ring

/-- Concrete check of C5 (amended): one transient failure then success
takes exactly two attempts with a single 0.5 unit sleep. -/
theorem C5_retry_policy_amended_witness :
    save_message_attempts (fun a => if a = 0 then .blocked else .success)
      = (.ok 2, 2 ^ 1 * BASE_DELAY,
         (List.range 1).map (fun j => 2 ^ j * BASE_DELAY)) :=
  (C5_retry_policy_amended (fun a => if a = 0 then .blocked else .success)
    (fun _ a => if a = 0 then .blocked else .success) 1 1 1 0).1
    (by decide) (by decide) (by decide)

/-- A calendar date as carried by the patient records, year-month-day. -/
structure HDate where
  year : Int
  month : Nat
  day : Nat
deriving DecidableEq, Repr

/-- Embeds calculate_age (src/main.py lines 27-44) with the current date
as an explicit argument: the year difference, minus one when today's
(month, day) is lexicographically before the birthday's (the Python tuple
comparison).  In the code a string date is first parsed with
strptime("%Y%m%d"); dates are modelled structurally. -/
def calculate_age (today : HDate) (birth_date : HDate) : Int :=
  today.year - birth_date.year -
    (if today.month < birth_date.month ∨
        (today.month = birth_date.month ∧ today.day < birth_date.day)
     then 1 else 0)

/-- The fields of a validated patientinfo.Patient that
process_record_batch inspects.  Field-level validation (src/patientinfo.py)
may leave a field empty: validate_length returns None for a missing value
and parse_date returns None for a missing or invalid date, so surname and
the dates are options; parse_death_indicator always returns "Y" or "N". -/
structure Patient where
  internal_patient_number : Option String
  surname : Option String
  date_of_birth : Option HDate
  death_indicator : String
  date_of_death : Option HDate

/-- Python truthiness of an optional string: None and the empty string are
falsy. -/
def str_truthy : Option String → Bool
  | none => false
  | some s => s != ""

/-- Result of constructing patientinfo.Patient(**patient_data) for one
record: the validated object, or the exception the constructor raised
(caught by the except branch of src/main.py line 113). -/
inductive BuildResult
  | ok (p : Patient)
  | raised (e : String)

/-- Severity attached to each entry of the per-batch log. -/
inductive LogLevel
  | warning
  | info
  | error
deriving DecidableEq, Repr

/-- The per-record skip reasons process_record_batch can log
(src/main.py lines 64, 100, 103, 107, 114). -/
inductive BatchLog
  | insufficientFields (found : Nat)
  | processingError (e : String)
  | missingSurname
  | ageExceeded
  | dodTooOld
deriving DecidableEq, Repr

/-- The log level process_record_batch attaches to each skip reason. -/
def batch_log_level : BatchLog → LogLevel
  | .insufficientFields _ => .warning
  | .processingError _ => .error
  | .missingSurname => .warning
  | .ageExceeded => .info
  | .dodTooOld => .info

/-- Embeds the second exclusion check of process_record_batch
(src/main.py lines 101-102): a truthy date of birth, date_of_death is
None, and a computed age over 112. -/
def exclude_no_dod_age (today : HDate) (p : Patient) : Bool :=
  match p.date_of_birth, p.date_of_death with
  | some dob, none => decide (calculate_age today dob > 112)
  | _, _ => false

/-- Embeds the third exclusion check of process_record_batch
(src/main.py lines 104-106): a truthy death indicator equal to "Y", a
truthy date of death, and a date of death more than 2 years old under the
same age computation. -/
def exclude_old_dod (today : HDate) (p : Patient) : Bool :=
  match p.date_of_death with
  | some dod =>
      (p.death_indicator != "") && (p.death_indicator == "Y")
        && decide (calculate_age today dod > 2)
  | none => false

/-- Embeds the body of the record loop of process_record_batch
(src/main.py lines 60-114) for one record: the field-count guard, the
patient construction (whose exception is caught and logged), the three
exclusion checks, and the call to the message builder (create_adt_message,
an external collaborator here, which returns None on failure).  Returns
the produced message, if any, and the logged skip reason, if any. -/
def process_one (today : HDate) (build : List String → BuildResult)
    (create_adt : Patient → Option μ) (record : List String) :
    Option μ × Option BatchLog :=
  if record.length < 25 then
    (none, some (.insufficientFields record.length))
  else
    match build record with
    | .raised e => (none, some (.processingError e))
    | .ok p =>
        if !(str_truthy p.surname) then (none, some .missingSurname)
        else if exclude_no_dod_age today p then (none, some .ageExceeded)
        else if exclude_old_dod today p then (none, some .dodTooOld)
        else
          match create_adt p with
          | some m => (some m, none)
          | none => (none, none)

/-- Embeds process_record_batch (src/main.py lines 55-126): every record
of the batch is processed, the valid messages and the log entries are
collected, and save_hl7_messages_batch is called only when at least one
valid message exists (line 116); the third component is that write call
(None when no write happens). -/
def process_record_batch (today : HDate) (build : List String → BuildResult)
    (create_adt : Patient → Option μ) (batch : List (List String)) :
    List μ × List BatchLog × Option (List μ) :=
  let results := batch.map (process_one today build create_adt)
  let valid_messages := results.filterMap Prod.fst
  let batch_log := results.filterMap Prod.snd
  (valid_messages, batch_log,
    if valid_messages.isEmpty then none else some valid_messages)

lemma process_batch_skip (today : HDate) (build : List String → BuildResult)
    (create_adt : Patient → Option μ) (record : List String)
    (rest : List (List String)) (lg : BatchLog)
    (h : process_one today build create_adt record = (none, some lg)) :
    process_record_batch today build create_adt (record :: rest)
      = ((process_record_batch today build create_adt rest).1,
         lg :: (process_record_batch today build create_adt rest).2.1,
         (process_record_batch today build create_adt rest).2.2) := by
  simp only [process_record_batch, List.map_cons, h, List.filterMap_cons]

/-- C7: a record with fewer than the required 25 fields is dropped with a
logged warning naming its field count and processing continues with the
rest of the batch; an exception raised while transforming a single record
is caught and logged at ERROR level without aborting the rest of the batch
or the worker; and a batch yielding zero valid artifacts performs no write
call at all (the batch writer is not invoked; it would also return at once
on an empty message list). -/
theorem C7_malformed_records_skipped_no_empty_write (today : HDate)
    (build : List String → BuildResult) (create_adt : Patient → Option μ) :
    (∀ (record : List String) (rest : List (List String)),
      record.length < 25 →
      process_one today build create_adt record
          = (none, some (.insufficientFields record.length)) ∧
      process_record_batch today build create_adt (record :: rest)
        = ((process_record_batch today build create_adt rest).1,
           BatchLog.insufficientFields record.length
             :: (process_record_batch today build create_adt rest).2.1,
           (process_record_batch today build create_adt rest).2.2)) ∧
    (∀ (record : List String) (rest : List (List String)) (e : String),
      ¬ record.length < 25 → build record = .raised e →
      process_one today build create_adt record
          = (none, some (.processingError e)) ∧
      process_record_batch today build create_adt (record :: rest)
        = ((process_record_batch today build create_adt rest).1,
           BatchLog.processingError e
             :: (process_record_batch today build create_adt rest).2.1,
           (process_record_batch today build create_adt rest).2.2)) ∧
    (∀ (n : Nat) (e : String),
      batch_log_level (.insufficientFields n) = .warning ∧
      batch_log_level (.processingError e) = .error) ∧
    (∀ batch : List (List String),
      (∀ r ∈ batch, (process_one today build create_adt r).1 = none) →
      (process_record_batch today build create_adt batch).1 = [] ∧
      (process_record_batch today build create_adt batch).2.2 = none) := by
  refine ⟨?_, ?_, fun n e => ⟨rfl, rfl⟩, ?_⟩
  · intro record rest hlen
    have h1 : process_one today build create_adt record
        = (none, some (.insufficientFields record.length)) := by
      simp [process_one, hlen]
    exact ⟨h1, process_batch_skip today build create_adt record rest _ h1⟩
  · intro record rest e hlen hraise
    have h1 : process_one today build create_adt record
        = (none, some (.processingError e)) := by
      simp [process_one, hlen, hraise]
    exact ⟨h1, process_batch_skip today build create_adt record rest _ h1⟩
  · intro batch hall
    have hnil : (batch.map (process_one today build create_adt)).filterMap
        Prod.fst = [] := by
      rw [List.filterMap_eq_nil_iff]
      intro x hx
      obtain ⟨r, hr, rfl⟩ := List.mem_map.mp hx
      exact hall r hr
    constructor
    · simpa [process_record_batch] using hnil
    · simp [process_record_batch, hnil]

/-- Concrete check of C7: a one-field record is dropped with a warning and
a batch of it alone performs no write. -/
theorem C7_malformed_records_skipped_no_empty_write_witness :
    process_one (⟨2026, 10, 12⟩ : HDate) (fun _ => BuildResult.raised "x")
        (fun _ => (none : Option Unit)) ["a"]
      = (none, some (.insufficientFields ["a"].length)) ∧
    process_record_batch (⟨2026, 10, 12⟩ : HDate)
        (fun _ => BuildResult.raised "x") (fun _ => (none : Option Unit))
        (["a"] :: [])
      = ((process_record_batch (⟨2026, 10, 12⟩ : HDate)
            (fun _ => BuildResult.raised "x")
            (fun _ => (none : Option Unit)) []).1,
         BatchLog.insufficientFields ["a"].length
           :: (process_record_batch (⟨2026, 10, 12⟩ : HDate)
                (fun _ => BuildResult.raised "x")
                (fun _ => (none : Option Unit)) []).2.1,
         (process_record_batch (⟨2026, 10, 12⟩ : HDate)
            (fun _ => BuildResult.raised "x")
            (fun _ => (none : Option Unit)) []).2.2) :=
  (C7_malformed_records_skipped_no_empty_write (⟨2026, 10, 12⟩ : HDate)
    (fun _ => BuildResult.raised "x") (fun _ => (none : Option Unit))).1
    ["a"] [] (by decide)

/-- C10: beyond the field-count check, process_record_batch silently
excludes records on three patient-level criteria, each with only a log
entry and no artifact: a patient with no surname; a patient with a date of
birth, no date of death, and a computed age over 112; and a patient with
death indicator "Y" and a date of death more than 2 years in the past. -/
theorem C10_patient_level_exclusions (today : HDate)
    (build : List String → BuildResult) (create_adt : Patient → Option μ) :
    (∀ (record : List String) (rest : List (List String)) (p : Patient),
      ¬ record.length < 25 → build record = .ok p →
      str_truthy p.surname = false →
      process_one today build create_adt record
          = (none, some .missingSurname) ∧
      process_record_batch today build create_adt (record :: rest)
        = ((process_record_batch today build create_adt rest).1,
           BatchLog.missingSurname
             :: (process_record_batch today build create_adt rest).2.1,
           (process_record_batch today build create_adt rest).2.2)) ∧
    (∀ (record : List String) (rest : List (List String)) (p : Patient)
        (dob : HDate),
      ¬ record.length < 25 → build record = .ok p →
      str_truthy p.surname = true → p.date_of_birth = some dob →
      p.date_of_death = none → calculate_age today dob > 112 →
      process_one today build create_adt record
          = (none, some .ageExceeded) ∧
      process_record_batch today build create_adt (record :: rest)
        = ((process_record_batch today build create_adt rest).1,
           BatchLog.ageExceeded
             :: (process_record_batch today build create_adt rest).2.1,
           (process_record_batch today build create_adt rest).2.2)) ∧
    (∀ (record : List String) (rest : List (List String)) (p : Patient)
        (dod : HDate),
      ¬ record.length < 25 → build record = .ok p →
      str_truthy p.surname = true → p.death_indicator = "Y" →
      p.date_of_death = some dod → calculate_age today dod > 2 →
      process_one today build create_adt record
          = (none, some .dodTooOld) ∧
      process_record_batch today build create_adt (record :: rest)
        = ((process_record_batch today build create_adt rest).1,
           BatchLog.dodTooOld
             :: (process_record_batch today build create_adt rest).2.1,
           (process_record_batch today build create_adt rest).2.2)) := by
  refine ⟨?_, ?_, ?_⟩
  · intro record rest p hlen hbuild hsn
    have h1 : process_one today build create_adt record
        = (none, some .missingSurname) := by
      simp [process_one, hlen, hbuild, hsn]
    exact ⟨h1, process_batch_skip today build create_adt record rest _ h1⟩
  · intro record rest p dob hlen hbuild hsn hdob hdod hage
    have h1 : process_one today build create_adt record
        = (none, some .ageExceeded) := by
      simp [process_one, hlen, hbuild, hsn, exclude_no_dod_age, hdob, hdod,
        hage]
    exact ⟨h1, process_batch_skip today build create_adt record rest _ h1⟩
  · intro record rest p dod hlen hbuild hsn hdi hdod hage
    have hex1 : exclude_no_dod_age today p = false := by
      unfold exclude_no_dod_age
      rw [hdod]
      rcases p.date_of_birth with _ | dob2 <;> rfl
    have h1 : process_one today build create_adt record
        = (none, some .dodTooOld) := by
      simp [process_one, hlen, hbuild, hsn, hex1, exclude_old_dod, hdod,
        hdi, hage]
    exact ⟨h1, process_batch_skip today build create_adt record rest _ h1⟩

/-- Concrete check of C10: a patient born in 1900 with no date of death is
excluded with only a log entry on 2026-10-12, at age 126. -/
theorem C10_patient_level_exclusions_witness :
    process_one (⟨2026, 10, 12⟩ : HDate)
        (fun _ => BuildResult.ok
          ⟨some "P1", some "X", some ⟨1900, 1, 1⟩, "N", none⟩)
        (fun _ => (none : Option Unit)) (List.replicate 25 "")
      = (none, some .ageExceeded) ∧
    process_record_batch (⟨2026, 10, 12⟩ : HDate)
        (fun _ => BuildResult.ok
          ⟨some "P1", some "X", some ⟨1900, 1, 1⟩, "N", none⟩)
        (fun _ => (none : Option Unit)) (List.replicate 25 "" :: [])
      = ((process_record_batch (⟨2026, 10, 12⟩ : HDate)
            (fun _ => BuildResult.ok
              ⟨some "P1", some "X", some ⟨1900, 1, 1⟩, "N", none⟩)
            (fun _ => (none : Option Unit)) []).1,
         BatchLog.ageExceeded
           :: (process_record_batch (⟨2026, 10, 12⟩ : HDate)
                (fun _ => BuildResult.ok
                  ⟨some "P1", some "X", some ⟨1900, 1, 1⟩, "N", none⟩)
                (fun _ => (none : Option Unit)) []).2.1,
         (process_record_batch (⟨2026, 10, 12⟩ : HDate)
            (fun _ => BuildResult.ok
              ⟨some "P1", some "X", some ⟨1900, 1, 1⟩, "N", none⟩)
            (fun _ => (none : Option Unit)) []).2.2) :=
  (C10_patient_level_exclusions (⟨2026, 10, 12⟩ : HDate)
    (fun _ => BuildResult.ok
      ⟨some "P1", some "X", some ⟨1900, 1, 1⟩, "N", none⟩)
    (fun _ => (none : Option Unit))).2.1
    (List.replicate 25 "") [] ⟨some "P1", some "X", some ⟨1900, 1, 1⟩, "N", none⟩
    ⟨1900, 1, 1⟩ (by decide) rfl (by decide) rfl rfl (by decide)
